import Mathlib

/-!
Verification of `pallets/vector/src/storage_utils.rs` (avail).

Shallow embedding: bytes are `List Nat`; machine bytes never overflow in the
code under study (they are only copied), so no modular arithmetic is needed.
The external collaborators (keccak-256, the EIP-1186 trie lookup, and the RLP
decoder) are out of scope per the spec and are modelled as an abstract
environment `ExtEnv`; all theorems quantify over it.
-/

/-- Bytes are lists of naturals (each intended `< 256`; the code only copies
them, so no bound is needed for the proved properties). -/
abbrev Bytes := List Nat

/-- The error enum `StorageError` of storage_utils.rs. -/
inductive StorageError
  | StorageValueError
  | AccountNotFound
  | CannotDecodeItems
  deriving DecidableEq, Repr

/-- `H256_LENGTH` constant from `rlp_to_h256`. -/
def H256_LENGTH : Nat := 32

/-- The copy loop of `rlp_to_h256`:
`for (i, v) in value.iter().enumerate() { slot_value[i + offset] = *v; }`,
rendered as sequential writes at `offset`, `offset + 1`, ... . -/
def write_bytes (buf : List Nat) (offset : Nat) : Bytes → List Nat
  | [] => buf
  | v :: rest => write_bytes (buf.set offset v) (offset + 1) rest

/-- The same loop with the bounds check Rust performs on every indexed write:
an out-of-bounds index is a panic, modelled as `none`. -/
def write_bytes_checked (buf : List Nat) (offset : Nat) : Bytes → Option (List Nat)
  | [] => some buf
  | v :: rest =>
    if offset < buf.length then write_bytes_checked (buf.set offset v) (offset + 1) rest
    else none

/-- `rlp_to_h256` from storage_utils.rs: reject inputs longer than 32 bytes,
otherwise write the input right-aligned into a zero-filled 32-byte buffer. -/
def rlp_to_h256 (value : Bytes) : Except StorageError Bytes :=
  if value.length > H256_LENGTH then .error .CannotDecodeItems
  else .ok (write_bytes (List.replicate H256_LENGTH 0) (H256_LENGTH - value.length) value)

/-- Big-endian integer value of a byte string. -/
def beNat (b : Bytes) : Nat := b.foldl (fun acc x => acc * 256 + x) 0

/-- Abstract interface of the external collaborators used by the two
verifiers: `keccak256` hashing, the trie lookup
(`TrieDBBuilder ... .build().get(key)`, whose result is
`Result<Option<Bytes>, _>`), and the three RLP-decoder entry points the code
calls on the raw trie value: `Rlp::new(v).data()`, `Rlp::new(v).item_count()`,
and `Rlp::new(v).at(2).and_then(|e| e.data())`. -/
structure ExtEnv where
  keccak256 : Bytes → Bytes
  trieGet : Bytes → List Bytes → Bytes → Except Unit (Option Bytes)
  rlpData : Bytes → Except Unit Bytes
  rlpItemCount : Bytes → Except Unit Nat
  rlpAt2Data : Bytes → Except Unit Bytes

/-- Body of `get_storage_value` after the key derivation
`let key = keccak256(slot_hash.as_bytes())`. -/
def get_storage_value_with_key (env : ExtEnv) (key storage_root : Bytes)
    (proof : List Bytes) : Except StorageError Bytes :=
  match env.trieGet storage_root proof key with
  | .ok (some trie_value) =>
    match env.rlpData trie_value with
    | .ok rlp_storage_value =>
      if rlp_storage_value.isEmpty then .error .CannotDecodeItems
      else rlp_to_h256 rlp_storage_value
    | .error _ => .error .CannotDecodeItems
  | .ok none => .error .StorageValueError
  | .error _ => .error .StorageValueError

/-- `get_storage_value` from storage_utils.rs. -/
def get_storage_value (env : ExtEnv) (slot_hash storage_root : Bytes)
    (proof : List Bytes) : Except StorageError Bytes :=
  get_storage_value_with_key env (env.keccak256 slot_hash) storage_root proof

/-- Body of `get_storage_root` after the key derivation
`let key = keccak256(address.as_bytes())`. -/
def get_storage_root_with_key (env : ExtEnv) (key : Bytes) (proof : List Bytes)
    (state_root : Bytes) : Except StorageError Bytes :=
  match env.trieGet state_root proof key with
  | .ok (some trie_value) =>
    match env.rlpItemCount trie_value with
    | .ok item_count =>
      if item_count ≠ 4 then .error .AccountNotFound
      else
        match env.rlpAt2Data trie_value with
        | .ok item => rlp_to_h256 item
        | .error _ => .error .StorageValueError
    | .error _ => .error .StorageValueError
  | .ok none => .error .StorageValueError
  | .error _ => .error .StorageValueError

/-- `get_storage_root` from storage_utils.rs. -/
def get_storage_root (env : ExtEnv) (proof : List Bytes) (address : Bytes)
    (state_root : Bytes) : Except StorageError Bytes :=
  get_storage_root_with_key env (env.keccak256 address) proof state_root

/-- Concrete environment builder used by witnesses: the external calls return
the given constants. -/
def mkEnv (kf : Bytes → Bytes) (tg : Except Unit (Option Bytes))
    (rd : Except Unit Bytes) (ic : Except Unit Nat) (a2 : Except Unit Bytes) :
    ExtEnv where
  keccak256 := kf
  trieGet := fun _ _ _ => tg
  rlpData := fun _ => rd
  rlpItemCount := fun _ => ic
  rlpAt2Data := fun _ => a2

-- ## Helper lemmas on the copy loop

theorem set_append_len (l1 l2 : List Nat) (a : Nat) :
    (l1 ++ l2).set l1.length a = l1 ++ l2.set 0 a := by
  induction l1 with
  | nil => rfl
  | cons x xs ih => simp [List.set, ih]

theorem write_bytes_append (value : Bytes) :
    ∀ pre suf : List Nat, value.length ≤ suf.length →
      write_bytes (pre ++ suf) pre.length value = pre ++ value ++ suf.drop value.length := by
  induction value with
  | nil => intro pre suf _; simp [write_bytes]
  | cons v rest ih =>
    intro pre suf h
    match suf with
    | [] => simp at h
    | s :: srest =>
      have h2 : rest.length ≤ srest.length := by
        simpa using h
      simp only [write_bytes, set_append_len]
      have e1 : (s :: srest).set 0 v = v :: srest := rfl
      rw [e1]
      have e2 : pre ++ v :: srest = (pre ++ [v]) ++ srest := by simp
      have e3 : pre.length + 1 = (pre ++ [v]).length := by simp
      rw [e2, e3, ih (pre ++ [v]) srest h2]
      simp

theorem write_bytes_replicate (b : Bytes) (h : b.length ≤ 32) :
    write_bytes (List.replicate 32 0) (32 - b.length) b
      = List.replicate (32 - b.length) 0 ++ b := by
  have hsplit : List.replicate 32 (0 : Nat)
      = List.replicate (32 - b.length) 0 ++ List.replicate b.length 0 := by
    rw [← List.replicate_add]
    congr 1
    omega
  have happ := write_bytes_append b (List.replicate (32 - b.length) 0)
    (List.replicate b.length 0) (by simp)
  simp only [List.length_replicate, List.append_assoc] at happ
  rw [hsplit, happ]
  simp

theorem rlp_to_h256_ok (b : Bytes) (h : b.length ≤ 32) :
    rlp_to_h256 b = .ok (List.replicate (32 - b.length) 0 ++ b) := by
  unfold rlp_to_h256 H256_LENGTH
  rw [if_neg (by omega), write_bytes_replicate b h]

theorem rlp_to_h256_ok_inv (b v : Bytes) (h : rlp_to_h256 b = .ok v) :
    b.length ≤ 32 ∧ v = List.replicate (32 - b.length) 0 ++ b := by
  by_cases hb : b.length ≤ 32
  · refine ⟨hb, ?_⟩
    rw [rlp_to_h256_ok b hb] at h
    exact (Except.ok.injEq _ _ ▸ h).symm
  · exfalso
    unfold rlp_to_h256 H256_LENGTH at h
    rw [if_pos (by omega)] at h
    exact Except.noConfusion h

theorem beNat_pad (k : Nat) (b : Bytes) :
    beNat (List.replicate k 0 ++ b) = beNat b := by
  unfold beNat
  rw [List.foldl_append]
  congr 1
  induction k with
  | zero => rfl
  | succ n ih => simpa using ih

theorem write_bytes_checked_eq (value : Bytes) :
    ∀ buf offset, offset + value.length ≤ buf.length →
      write_bytes_checked buf offset value = some (write_bytes buf offset value) := by
  induction value with
  | nil => intro buf offset _; rfl
  | cons v rest ih =>
    intro buf offset h
    simp only [write_bytes_checked, write_bytes, List.length_cons] at *
    rw [if_pos (by omega)]
    exact ih (buf.set offset v) (offset + 1) (by simp; omega)

theorem rlp_to_h256_long (b : Bytes) (h : 32 < b.length) :
    rlp_to_h256 b = .error .CannotDecodeItems := by
  unfold rlp_to_h256 H256_LENGTH
  rw [if_pos (by omega)]

theorem rlp_to_h256_ne_account (b : Bytes) :
    rlp_to_h256 b ≠ .error .AccountNotFound := by
  unfold rlp_to_h256
  split <;> simp

-- ## Claims

/-- C1: for every byte string `b` with `len b ≤ 32`, `rlp_to_h256 b` succeeds
and returns `b` right-aligned in a zero-filled 32-byte buffer (written at
offset `32 - len b`), a 32-byte value preserving the big-endian integer value
of `b`; the empty byte string yields the all-zero 32-byte value. -/
theorem rlp_to_h256_right_aligned (b : Bytes) (h : b.length ≤ 32) :
    rlp_to_h256 b = .ok (List.replicate (32 - b.length) 0 ++ b)
    ∧ (List.replicate (32 - b.length) 0 ++ b).length = 32
    ∧ beNat (List.replicate (32 - b.length) 0 ++ b) = beNat b
    ∧ rlp_to_h256 [] = .ok (List.replicate 32 0) := by
  refine ⟨rlp_to_h256_ok b h, by simp; omega, beNat_pad _ b, ?_⟩
  simpa using rlp_to_h256_ok [] (by simp)

/-- Witness for C1 at the concrete input `[7, 8]`. -/
theorem rlp_to_h256_right_aligned_witness :
    rlp_to_h256 [7, 8] = .ok (List.replicate (32 - ([7, 8] : Bytes).length) 0 ++ [7, 8])
    ∧ (List.replicate (32 - ([7, 8] : Bytes).length) 0 ++ [7, 8]).length = 32
    ∧ beNat (List.replicate (32 - ([7, 8] : Bytes).length) 0 ++ [7, 8]) = beNat [7, 8]
    ∧ rlp_to_h256 [] = .ok (List.replicate 32 0) :=
  rlp_to_h256_right_aligned [7, 8] (by decide)

/-- C3: for every byte string `b` with `len b > 32`, `rlp_to_h256 b` fails
with `CannotDecodeItems`; in particular no over-long input is truncated to a
successful 32-byte value. -/
theorem rlp_to_h256_rejects_long (b : Bytes) (h : 32 < b.length) :
    rlp_to_h256 b = .error .CannotDecodeItems ∧ ∀ v, rlp_to_h256 b ≠ .ok v :=
  ⟨rlp_to_h256_long b h, fun v hv => by
    rw [rlp_to_h256_long b h] at hv
    exact Except.noConfusion hv⟩

/-- Witness for C3 at a 33-byte input. -/
theorem rlp_to_h256_rejects_long_witness :
    rlp_to_h256 (List.replicate 33 7) = .error .CannotDecodeItems
    ∧ ∀ v, rlp_to_h256 (List.replicate 33 7) ≠ .ok v :=
  rlp_to_h256_rejects_long (List.replicate 33 7) (by simp)

/-- C10: for every input of length at most 32 (the only case that reaches the
copy loop), every write index `i + (32 - len value)` is in bounds, the
bounds-checked rendering of the loop completes without a panic and agrees
with the unchecked one, and `rlp_to_h256` returns exactly that buffer. -/
theorem rlp_to_h256_writes_in_bounds (value : Bytes) (h : value.length ≤ 32) :
    (∀ i, i < value.length → i + (32 - value.length) < 32)
    ∧ write_bytes_checked (List.replicate 32 0) (32 - value.length) value
        = some (write_bytes (List.replicate 32 0) (32 - value.length) value)
    ∧ rlp_to_h256 value
        = .ok (write_bytes (List.replicate 32 0) (32 - value.length) value) := by
  refine ⟨fun i hi => by omega, ?_, ?_⟩
  · exact write_bytes_checked_eq value (List.replicate 32 0) (32 - value.length)
      (by simp; omega)
  · unfold rlp_to_h256 H256_LENGTH
    rw [if_neg (by omega)]

/-- Witness for C10 at a full-width 32-byte input. -/
theorem rlp_to_h256_writes_in_bounds_witness :
    (∀ i, i < (List.replicate 32 1 : Bytes).length →
        i + (32 - (List.replicate 32 1 : Bytes).length) < 32)
    ∧ write_bytes_checked (List.replicate 32 0)
        (32 - (List.replicate 32 1 : Bytes).length) (List.replicate 32 1)
        = some (write_bytes (List.replicate 32 0)
            (32 - (List.replicate 32 1 : Bytes).length) (List.replicate 32 1))
    ∧ rlp_to_h256 (List.replicate 32 1)
        = .ok (write_bytes (List.replicate 32 0)
            (32 - (List.replicate 32 1 : Bytes).length) (List.replicate 32 1)) :=
  rlp_to_h256_writes_in_bounds (List.replicate 32 1) (by simp)

-- ## Concrete environments for witnesses

def envAbsent : ExtEnv := mkEnv (fun b => b) (.ok none) (.ok []) (.ok 4) (.ok [])

def envFault : ExtEnv := mkEnv (fun b => b) (.error ()) (.ok []) (.ok 4) (.ok [])

def envCount3 : ExtEnv := mkEnv (fun b => b) (.ok (some [1])) (.ok []) (.ok 3) (.ok [])

def envCountErr : ExtEnv := mkEnv (fun b => b) (.ok (some [1])) (.ok []) (.error ()) (.ok [])

def envDataErr : ExtEnv := mkEnv (fun b => b) (.ok (some [1])) (.error ()) (.ok 4) (.ok [])

def envEmptyData : ExtEnv := mkEnv (fun b => b) (.ok (some [1])) (.ok []) (.ok 4) (.ok [])

def envZeroData : ExtEnv := mkEnv (fun b => b) (.ok (some [1])) (.ok [0]) (.ok 4) (.ok [])

def envField2 : ExtEnv :=
  mkEnv (fun b => b) (.ok (some [1])) (.ok []) (.ok 4) (.ok (List.replicate 32 5))

def envField2Err : ExtEnv := mkEnv (fun b => b) (.ok (some [1])) (.ok []) (.ok 4) (.error ())

def envField2Long : ExtEnv :=
  mkEnv (fun b => b) (.ok (some [1])) (.ok []) (.ok 4) (.ok (List.replicate 33 5))

def envConstHash : ExtEnv := mkEnv (fun _ => [9]) (.ok none) (.ok []) (.ok 4) (.ok [])

/-- C4: in both verifiers, a trie lookup that reports the key absent and a
trie lookup that signals a structural fault both make the function return
`StorageValueError`; the caller sees the same result in both cases. -/
theorem lookup_absent_and_fault_indistinguishable (env : ExtEnv)
    (slot_hash storage_root address state_root : Bytes) (proof proof2 : List Bytes) :
    (env.trieGet storage_root proof (env.keccak256 slot_hash) = .ok none →
      get_storage_value env slot_hash storage_root proof = .error .StorageValueError)
    ∧ (∀ e, env.trieGet storage_root proof (env.keccak256 slot_hash) = .error e →
      get_storage_value env slot_hash storage_root proof = .error .StorageValueError)
    ∧ (env.trieGet state_root proof2 (env.keccak256 address) = .ok none →
      get_storage_root env proof2 address state_root = .error .StorageValueError)
    ∧ (∀ e, env.trieGet state_root proof2 (env.keccak256 address) = .error e →
      get_storage_root env proof2 address state_root = .error .StorageValueError) := by
  refine ⟨fun h => ?_, fun e h => ?_, fun h => ?_, fun e h => ?_⟩ <;>
    simp [get_storage_value, get_storage_value_with_key, get_storage_root,
      get_storage_root_with_key, h]

/-- Witness for C4: absent and faulted lookups at concrete inputs. -/
theorem lookup_absent_and_fault_indistinguishable_witness :
    get_storage_value envAbsent [1] [2] [] = .error .StorageValueError
    ∧ get_storage_value envFault [1] [2] [] = .error .StorageValueError
    ∧ get_storage_root envAbsent [] [3] [4] = .error .StorageValueError
    ∧ get_storage_root envFault [] [3] [4] = .error .StorageValueError :=
  ⟨(lookup_absent_and_fault_indistinguishable envAbsent [1] [2] [3] [4] [] []).1 rfl,
   (lookup_absent_and_fault_indistinguishable envFault [1] [2] [3] [4] [] []).2.1 () rfl,
   (lookup_absent_and_fault_indistinguishable envAbsent [1] [2] [3] [4] [] []).2.2.1 rfl,
   (lookup_absent_and_fault_indistinguishable envFault [1] [2] [3] [4] [] []).2.2.2 () rfl⟩

/-- C2: in `get_storage_root`, once the trie lookup has produced a raw value,
a determinable RLP item count different from 4 yields `AccountNotFound`
(hence neither `CannotDecodeItems` nor `StorageValueError`); an
undeterminable item count yields `StorageValueError`; and `AccountNotFound`
arises only from a determinable count different from 4. -/
theorem storage_root_item_count_discipline (env : ExtEnv) (proof : List Bytes)
    (address state_root tv : Bytes)
    (htr : env.trieGet state_root proof (env.keccak256 address) = .ok (some tv)) :
    (∀ n, env.rlpItemCount tv = .ok n → n ≠ 4 →
      get_storage_root env proof address state_root = .error .AccountNotFound)
    ∧ (∀ e, env.rlpItemCount tv = .error e →
      get_storage_root env proof address state_root = .error .StorageValueError)
    ∧ (get_storage_root env proof address state_root = .error .AccountNotFound →
      ∃ n, env.rlpItemCount tv = .ok n ∧ n ≠ 4) := by
  refine ⟨fun n hn h4 => ?_, fun e he => ?_, fun hres => ?_⟩
  · simp [get_storage_root, get_storage_root_with_key, htr, hn, h4]
  · simp [get_storage_root, get_storage_root_with_key, htr, he]
  · simp only [get_storage_root, get_storage_root_with_key, htr] at hres
    cases hic : env.rlpItemCount tv with
    | error e => rw [hic] at hres; simp at hres
    | ok n =>
      rw [hic] at hres
      by_cases h4 : n = 4
      · subst h4
        simp at hres
        cases ha : env.rlpAt2Data tv with
        | error e => rw [ha] at hres; simp at hres
        | ok item =>
          rw [ha] at hres
          simp at hres
          exact absurd hres (rlp_to_h256_ne_account item)
      · exact ⟨n, rfl, h4⟩

/-- Witness for C2: item count 3 gives `AccountNotFound`, an undeterminable
count gives `StorageValueError`. -/
theorem storage_root_item_count_discipline_witness :
    get_storage_root envCount3 [] [3] [4] = .error .AccountNotFound
    ∧ get_storage_root envCountErr [] [3] [4] = .error .StorageValueError
    ∧ ∃ n, envCount3.rlpItemCount [1] = .ok n ∧ n ≠ 4 :=
  ⟨(storage_root_item_count_discipline envCount3 [] [3] [4] [1] rfl).1 3 rfl (by decide),
   (storage_root_item_count_discipline envCountErr [] [3] [4] [1] rfl).2.1 () rfl,
   (storage_root_item_count_discipline envCount3 [] [3] [4] [1] rfl).2.2
     ((storage_root_item_count_discipline envCount3 [] [3] [4] [1] rfl).1 3 rfl
       (by decide))⟩

/-- C5 counterexample: at a concrete input where the RLP byte-string decode
of the raw trie value fails, `get_storage_value` returns
`CannotDecodeItems`, not `StorageValueError` as the claim states. -/
theorem storage_value_decode_failure_counterexample :
    get_storage_value envDataErr [1] [2] [] = .error .CannotDecodeItems
    ∧ get_storage_value envDataErr [1] [2] [] ≠ .error .StorageValueError := by
  constructor
  · rfl
  · intro h
    rw [show get_storage_value envDataErr [1] [2] [] = .error .CannotDecodeItems from rfl]
      at h
    exact StorageError.noConfusion (Except.error.inj h)

/-- C5 (amended): in `get_storage_value`, when the decode of the raw trie
value as a single RLP byte string fails, the function fails with
`CannotDecodeItems`, not `StorageValueError`. -/
theorem storage_value_decode_failure_error (env : ExtEnv)
    (slot_hash storage_root : Bytes) (proof : List Bytes) :
    ∀ tv, env.trieGet storage_root proof (env.keccak256 slot_hash) = .ok (some tv) →
      ∀ e, env.rlpData tv = .error e →
        get_storage_value env slot_hash storage_root proof = .error .CannotDecodeItems := by
  intro tv htr e hd
  simp [get_storage_value, get_storage_value_with_key, htr, hd]

/-- Witness for the amended C5. -/
theorem storage_value_decode_failure_error_witness :
    get_storage_value envDataErr [1] [2] [] = .error .CannotDecodeItems :=
  storage_value_decode_failure_error envDataErr [1] [2] [] [1] rfl () rfl

/-- C6: in `get_storage_value`, an RLP-decoded empty byte string fails with
`CannotDecodeItems`; and whenever the function returns the all-zero 32-byte
value, the decoded byte string was a non-empty all-zero byte sequence of
length at most 32 — the all-zero output never arises as an error fallback. -/
theorem storage_value_empty_and_zero (env : ExtEnv)
    (slot_hash storage_root : Bytes) (proof : List Bytes) :
    (∀ tv, env.trieGet storage_root proof (env.keccak256 slot_hash) = .ok (some tv) →
      env.rlpData tv = .ok [] →
        get_storage_value env slot_hash storage_root proof = .error .CannotDecodeItems)
    ∧ (get_storage_value env slot_hash storage_root proof = .ok (List.replicate 32 0) →
      ∃ tv b, env.trieGet storage_root proof (env.keccak256 slot_hash) = .ok (some tv)
        ∧ env.rlpData tv = .ok b ∧ b ≠ [] ∧ b.length ≤ 32 ∧ ∀ x ∈ b, x = 0) := by
  constructor
  · intro tv htr hd
    simp [get_storage_value, get_storage_value_with_key, htr, hd]
  · intro hres
    simp only [get_storage_value, get_storage_value_with_key] at hres
    cases htr : env.trieGet storage_root proof (env.keccak256 slot_hash) with
    | error e => rw [htr] at hres; simp at hres
    | ok o =>
      rw [htr] at hres
      cases o with
      | none => simp at hres
      | some tv =>
        simp only at hres
        cases hd : env.rlpData tv with
        | error e => rw [hd] at hres; simp at hres
        | ok b =>
          rw [hd] at hres
          simp only at hres
          cases b with
          | nil => simp at hres
          | cons x xs =>
            rw [if_neg (by simp)] at hres
            obtain ⟨hlen, hval⟩ := rlp_to_h256_ok_inv (x :: xs) _ hres
            refine ⟨tv, x :: xs, rfl, hd, by simp, hlen, fun y hy => ?_⟩
            have hmem : y ∈ List.replicate (32 - (x :: xs).length) 0 ++ x :: xs :=
              List.mem_append_right _ hy
            rw [← hval] at hmem
            exact List.eq_of_mem_replicate hmem

/-- Witness for C6: an empty decoded byte string errors; the non-empty
all-zero byte string `[0]` produces the all-zero output. -/
theorem storage_value_empty_and_zero_witness :
    get_storage_value envEmptyData [1] [2] [] = .error .CannotDecodeItems
    ∧ ∃ tv b, envZeroData.trieGet [2] [] (envZeroData.keccak256 [1]) = .ok (some tv)
      ∧ envZeroData.rlpData tv = .ok b ∧ b ≠ [] ∧ b.length ≤ 32 ∧ ∀ x ∈ b, x = 0 :=
  ⟨(storage_value_empty_and_zero envEmptyData [1] [2] []).1 [1] rfl rfl,
   (storage_value_empty_and_zero envZeroData [1] [2] []).2 rfl⟩

/-- C7: in `get_storage_root`, with a raw trie value of item count 4, a
field-2 byte-string decode failure yields `StorageValueError`, a successful
decode makes the result exactly the normalization of that field (so a
rejected length yields `CannotDecodeItems`); and every successful result is
the normalization of the decoded field at zero-based index 2. -/
theorem storage_root_field2_contract (env : ExtEnv) (proof : List Bytes)
    (address state_root : Bytes) :
    (∀ tv, env.trieGet state_root proof (env.keccak256 address) = .ok (some tv) →
      env.rlpItemCount tv = .ok 4 →
        (∀ e, env.rlpAt2Data tv = .error e →
          get_storage_root env proof address state_root = .error .StorageValueError)
        ∧ (∀ item, env.rlpAt2Data tv = .ok item →
          get_storage_root env proof address state_root = rlp_to_h256 item)
        ∧ (∀ item, env.rlpAt2Data tv = .ok item → 32 < item.length →
          get_storage_root env proof address state_root = .error .CannotDecodeItems))
    ∧ (∀ v, get_storage_root env proof address state_root = .ok v →
      ∃ tv item, env.trieGet state_root proof (env.keccak256 address) = .ok (some tv)
        ∧ env.rlpItemCount tv = .ok 4
        ∧ env.rlpAt2Data tv = .ok item
        ∧ rlp_to_h256 item = .ok v) := by
  constructor
  · intro tv htr hic
    refine ⟨fun e ha => ?_, fun item ha => ?_, fun item ha hlong => ?_⟩
    · simp [get_storage_root, get_storage_root_with_key, htr, hic, ha]
    · simp [get_storage_root, get_storage_root_with_key, htr, hic, ha]
    · simp [get_storage_root, get_storage_root_with_key, htr, hic, ha,
        rlp_to_h256_long item hlong]
  · intro v hres
    simp only [get_storage_root, get_storage_root_with_key] at hres
    cases htr : env.trieGet state_root proof (env.keccak256 address) with
    | error e => rw [htr] at hres; simp at hres
    | ok o =>
      rw [htr] at hres
      cases o with
      | none => simp at hres
      | some tv =>
        simp only at hres
        cases hic : env.rlpItemCount tv with
        | error e => rw [hic] at hres; simp at hres
        | ok n =>
          rw [hic] at hres
          by_cases h4 : n = 4
          · subst h4
            simp only [ne_eq] at hres
            cases ha : env.rlpAt2Data tv with
            | error e => rw [ha] at hres; simp at hres
            | ok item =>
              rw [ha] at hres
              simp at hres
              exact ⟨tv, item, rfl, hic, ha, hres⟩
          · simp [h4] at hres

/-- Witness for C7: field-2 decode failure, a 32-byte field, and a 33-byte
field, each at a concrete environment. -/
theorem storage_root_field2_contract_witness :
    get_storage_root envField2Err [] [3] [4] = .error .StorageValueError
    ∧ get_storage_root envField2 [] [3] [4] = rlp_to_h256 (List.replicate 32 5)
    ∧ get_storage_root envField2Long [] [3] [4] = .error .CannotDecodeItems :=
  ⟨((storage_root_field2_contract envField2Err [] [3] [4]).1 [1] rfl rfl).1 () rfl,
   ((storage_root_field2_contract envField2 [] [3] [4]).1 [1] rfl rfl).2.1
     (List.replicate 32 5) rfl,
   ((storage_root_field2_contract envField2Long [] [3] [4]).1 [1] rfl rfl).2.2
     (List.replicate 33 5) rfl (by simp)⟩

/-- C8: `get_storage_value` never returns `AccountNotFound`, for any
environment and any input. -/
theorem storage_value_never_account_not_found (env : ExtEnv)
    (slot_hash storage_root : Bytes) (proof : List Bytes) :
    get_storage_value env slot_hash storage_root proof ≠ .error .AccountNotFound := by
  unfold get_storage_value get_storage_value_with_key
  repeat' split
  all_goals first
    | exact rlp_to_h256_ne_account _
    | simp

/-- C9: both verifiers query the trie at the keccak-256 image of the
caller-supplied bytes — the same single extra hash layer for slot
identifiers as for addresses — and the result depends on the caller-supplied
identifier only through that hash, so the raw identifier is never itself the
trie key. -/
theorem trie_key_is_hash_of_input (env : ExtEnv) (slot_hash storage_root : Bytes)
    (proof : List Bytes) (address state_root : Bytes) (proof2 : List Bytes) :
    get_storage_value env slot_hash storage_root proof
      = get_storage_value_with_key env (env.keccak256 slot_hash) storage_root proof
    ∧ get_storage_root env proof2 address state_root
      = get_storage_root_with_key env (env.keccak256 address) proof2 state_root
    ∧ (∀ sh2, env.keccak256 slot_hash = env.keccak256 sh2 →
      get_storage_value env slot_hash storage_root proof
        = get_storage_value env sh2 storage_root proof)
    ∧ (∀ a2, env.keccak256 address = env.keccak256 a2 →
      get_storage_root env proof2 address state_root
        = get_storage_root env proof2 a2 state_root) := by
  refine ⟨rfl, rfl, fun sh2 h => ?_, fun a2 h => ?_⟩
  · unfold get_storage_value
    rw [h]
  · unfold get_storage_root
    rw [h]

/-- Witness for C9: under a constant hash, distinct identifiers with the same
hash give the same result. -/
theorem trie_key_is_hash_of_input_witness :
    get_storage_value envConstHash [1] [2] [] = get_storage_value envConstHash [5] [2] []
    ∧ get_storage_root envConstHash [] [1] [4] = get_storage_root envConstHash [] [5] [4] :=
  ⟨(trie_key_is_hash_of_input envConstHash [1] [2] [] [1] [4] []).2.2.1 [5] rfl,
   (trie_key_is_hash_of_input envConstHash [1] [2] [] [1] [4] []).2.2.2 [5] rfl⟩
